import Mathlib

/-!
Verification development for the claw-mem repository.

This file gives a shallow embedding, in Lean 4, of the capture-and-scoring
pipeline (src/capture/session_capture.py) and of the tiered memory store
(src/core/memory_manager.py), and proves or refutes the frozen claims about
them.

Modelling conventions:
* Python strings are `List Char`; string literals are written as `"...".data`.
* Python floats are modelled as exact rationals `ℚ`; every numeric literal in
  the source (0.1, 0.6, 0.9, ...) is an exact decimal, so the arithmetic of the
  claims is unchanged.
* Wall-clock timestamps (datetime.now, time.time) are threaded explicitly as a
  `Nat` parameter `now` (milliseconds); the source reads the clock exactly once
  per stored item.
* File I/O performed by the store (re-rendering SESSION.md / MEMORY.md) does
  not feed back into any in-memory state read by the claims, and the
  surrounding try/except blocks make every operation total, so the embedding
  models the in-memory state transition only.
* The regular-expression engine is not embedded.  The pattern-matching stage of
  capture_from_text is parameterised by the list of raw regex matches
  (`RawMatch`); everything downstream of the regex calls (trimming, the length
  filter, confidence scoring, the min-confidence filter, the keyword fallback
  and deduplication) is embedded concretely.  Where a concrete run needs the
  regex output, the text is chosen shorter than 10 characters, so that the
  length filter discards every possible match (a regex match is a substring of
  the text) and the empty match list is forced.
-/

/-! ### Exact rational arithmetic

The Batteries library marks `Rat.add`, `Rat.sub` and `Rat.mul` irreducible,
which blocks kernel evaluation of concrete runs.  The embedding therefore
uses the following normal forms, each proved equal to the corresponding
standard operation on `ℚ`, so that universal theorems can reason with the
ordinary arithmetic of `ℚ` while concrete runs still evaluate by `decide`.
Divisions in the sources always have an integer numerator and a natural
denominator and are written directly as `mkRat`. -/

/-- Addition on `ℚ` in `mkRat` normal form. -/
def qadd (a b : ℚ) : ℚ := mkRat (a.num * b.den + b.num * a.den) (a.den * b.den)

/-- Subtraction on `ℚ` in `mkRat` normal form. -/
def qsub (a b : ℚ) : ℚ := mkRat (a.num * b.den - b.num * a.den) (a.den * b.den)

/-- Multiplication on `ℚ` in `mkRat` normal form. -/
def qmul (a b : ℚ) : ℚ := mkRat (a.num * b.num) (a.den * b.den)

theorem qadd_eq (a b : ℚ) : qadd a b = a + b := by
  rw [qadd, Rat.mkRat_eq_div]
  push_cast
  conv_rhs => rw [← Rat.num_div_den a, ← Rat.num_div_den b]
  field_simp

theorem qsub_eq (a b : ℚ) : qsub a b = a - b := by
  rw [qsub, Rat.mkRat_eq_div]
  push_cast
  conv_rhs => rw [← Rat.num_div_den a, ← Rat.num_div_den b]
  field_simp
  ring

theorem qmul_eq (a b : ℚ) : qmul a b = a * b := by
  rw [qmul, Rat.mkRat_eq_div]
  push_cast
  conv_rhs => rw [← Rat.num_div_den a, ← Rat.num_div_den b]
  field_simp

theorem mkRat_div (m : Int) (n : Nat) : mkRat m n = (m : ℚ) / (n : ℚ) := by
  rw [Rat.mkRat_eq_div]

/-! ### Python string primitives -/

/-- Python whitespace characters (str.strip, str.split): space, tab, newline,
carriage return, vertical tab, form feed. -/
def pyIsSpace (c : Char) : Bool :=
  c == ' ' || c == '\t' || c == '\n' || c == '\r' || c.toNat == 11 || c.toNat == 12

/-- Python str.strip(): remove leading and trailing whitespace. -/
def pyStrip (l : List Char) : List Char :=
  ((l.dropWhile pyIsSpace).reverse.dropWhile pyIsSpace).reverse

/-- Python str.lower() on one character (ASCII case mapping; the CJK characters
appearing in the sources have no case and are unchanged, as in Python). -/
def pyToLowerChar (c : Char) : Char :=
  if 65 ≤ c.toNat ∧ c.toNat ≤ 90 then Char.ofNat (c.toNat + 32) else c

/-- Python str.lower(). -/
def pyLower (l : List Char) : List Char :=
  l.map pyToLowerChar

/-- Python substring membership `needle in haystack`. -/
def listContains (needle : List Char) : List Char → Bool
  | [] => needle.isEmpty
  | c :: rest => needle.isPrefixOf (c :: rest) || listContains needle rest

/-- Helper for `pyFind`: first index at or after `i` where `needle` starts. -/
def pyFindAux (needle : List Char) : List Char → Nat → Int
  | [], i => if needle.isEmpty then (i : Int) else -1
  | c :: rest, i =>
    if needle.isPrefixOf (c :: rest) then (i : Int) else pyFindAux needle rest (i + 1)

/-- Python str.find(): index of the first occurrence of `needle` in `haystack`,
or -1 when absent. -/
def pyFind (haystack needle : List Char) : Int :=
  pyFindAux needle haystack 0

/-- Model of `re.split` with a character-class-plus pattern: split on every
maximal nonempty run of delimiter characters.  A leading (resp. trailing)
delimiter run yields one empty leading (resp. trailing) field; interior runs
never yield empty fields because consecutive delimiters are one separator. -/
def splitRuns (p : Char → Bool) : List Char → List (List Char)
  | [] => [[]]
  | c :: cs =>
    let r := splitRuns p cs
    if p c then
      match cs with
      | c2 :: _ => if p c2 then r else [] :: r
      | [] => [] :: r
    else
      match r with
      | [] => [[c]]
      | f :: rest => (c :: f) :: rest

/-- Python str.split() with no argument: fields between whitespace runs, with
no empty fields. -/
def pySplitWs (l : List Char) : List (List Char) :=
  (splitRuns pyIsSpace l).filter (fun f => !f.isEmpty)

/-- Python \w (regex word character) as used by `re.sub(r'[^\w]', '', ...)`:
ASCII alphanumerics, underscore, and (for the inputs appearing in this
development) the CJK unified ideographs, all of which are word characters in
Python regular expressions. -/
def pyIsWordChar (c : Char) : Bool :=
  c.isAlphanum || c == '_' || (0x4E00 ≤ c.toNat && c.toNat ≤ 0x9FFF)

/-- Python str.isalnum() on one character, for the character set used here. -/
def pyIsAlnumChar (c : Char) : Bool :=
  c.isAlphanum || (0x4E00 ≤ c.toNat && c.toNat ≤ 0x9FFF)

/-- Python str.isalnum(): nonempty and every character alphanumeric. -/
def pyIsAlnumStr (w : List Char) : Bool :=
  !w.isEmpty && w.all pyIsAlnumChar

/-! ### Capture engine (src/capture/session_capture.py) -/

/-- Enum CaptureType. -/
inductive CaptureType where
  | decision | preference | fact | plan | lesson | warning | contact | general
deriving DecidableEq

/-- The fields of the metadata dict that distinguish one captured item from
another: the pattern-matching path records the source pattern, the smart
extraction fallback records the sentence index. -/
inductive CaptureMethod where
  | patternMatching (pattern : List Char)
  | smartExtraction (sentenceIndex : Nat)
deriving DecidableEq

/-- Dataclass CapturedItem.  The datetime.now timestamp field is omitted: it is
never read by the pipeline. -/
structure CapturedItem where
  type : CaptureType
  content : List Char
  confidence : ℚ
  context : List Char
  method : CaptureMethod
deriving DecidableEq

/-- One entry of the context window (_update_context): the 200-character text
preview, the optional context label, and the original length.  The iso
timestamp string is omitted: it is never read. -/
structure CtxEntry where
  text : List Char
  context : Option (List Char)
  length : Nat
deriving DecidableEq

/-- The configuration fields read by the capture pipeline. -/
structure CaptureConfig where
  maxContextSize : Nat
  minConfidence : ℚ
deriving DecidableEq

/-- One raw regex match produced by the pattern catalog: the capture type,
the source pattern, its base confidence, and the matched content (first
captured group).  A faithful match list only contains matched substrings of
the input text. -/
structure RawMatch where
  type : CaptureType
  pattern : List Char
  baseConfidence : ℚ
  matched : List Char
deriving DecidableEq

/-- _update_context: append a 200-character preview entry, evict the oldest
entry when over capacity. -/
def updateContext (cfg : CaptureConfig) (cw : List CtxEntry) (text : List Char)
    (ctx : Option (List Char)) : List CtxEntry :=
  let cw1 := cw ++ [{ text := text.take 200, context := ctx, length := text.length }]
  if cfg.maxContextSize < cw1.length then cw1.tail else cw1

/-- _get_current_context: numbered 50-character previews of the last three
context entries joined by newlines. -/
def getCurrentContext (cw : List CtxEntry) : List Char :=
  if cw.isEmpty then []
  else
    let recent := cw.drop (cw.length - 3)
    List.intercalate "\n".data <| recent.enum.map fun ic =>
      let preview := if 50 < ic.2.text.length then ic.2.text.take 50 ++ "...".data else ic.2.text
      Nat.toDigits 10 (ic.1 + 1) ++ ". ".data ++ preview

/-- The per-category keyword lists of _calculate_confidence (important_words);
`none` for the capture types absent from that dict. -/
def keywordList (t : CaptureType) : Option (List (List Char)) :=
  match t with
  | .decision => some ["决定".data, "选择".data, "确定".data, "采用".data, "使用".data]
  | .preference => some ["偏好".data, "喜欢".data, "更合适".data, "更好".data]
  | .fact => some ["重要".data, "关键".data, "记住".data, "事实".data, "确认".data]
  | .plan => some ["计划".data, "目标".data, "下一步".data, "准备".data]
  | .lesson => some ["经验".data, "教训".data, "学到".data, "总结".data, "应该".data]
  | _ => none

/-- _check_context_consistency: sniff a category for each of the last three
context entries and test whether the capture type is among the last two
sniffed categories.  The content argument of the source is unused there and
omitted. -/
def checkContextConsistency (cw : List CtxEntry) (ctype : CaptureType) : Bool :=
  if cw.isEmpty then false
  else
    let recentTypes := (cw.drop (cw.length - 3)).filterMap fun ctx =>
      if listContains "决定".data ctx.text || listContains "选择".data ctx.text then
        some CaptureType.decision
      else if listContains "偏好".data ctx.text || listContains "喜欢".data ctx.text then
        some CaptureType.preference
      else if listContains "计划".data ctx.text || listContains "目标".data ctx.text then
        some CaptureType.plan
      else none
    if 2 ≤ recentTypes.length then
      (recentTypes.drop (recentTypes.length - 2)).contains ctype
    else false

/-- _calculate_confidence: base confidence, length adjustment, keyword
density, context consistency, position bonus, clamped to [0.1, 1.0]. -/
def calculateConfidence (cw : List CtxEntry) (content : List Char)
    (ctype : CaptureType) (baseConfidence : ℚ) (fullText : List Char) : ℚ :=
  let c1 := baseConfidence
  let contentLength := content.length
  let c2 :=
    if 20 ≤ contentLength ∧ contentLength ≤ 100 then qadd c1 (mkRat 5 100)
    else if 200 < contentLength then qsub c1 (mkRat 1 10)
    else if contentLength < 15 then qsub c1 (mkRat 15 100)
    else c1
  let c3 :=
    match keywordList ctype with
    | some ws =>
        qadd c2 (min (qmul (mkRat (ws.countP (fun w => listContains w content)) 1) (mkRat 3 100))
          (mkRat 15 100))
    | none => c2
  let c4 := if checkContextConsistency cw ctype then qadd c3 (mkRat 1 10) else c3
  let posFrac : ℚ :=
    if fullText.isEmpty then mkRat 1 2
    else mkRat (pyFind fullText content) fullText.length
  let c5 := if posFrac < mkRat 2 10 ∨ mkRat 8 10 < posFrac then qadd c4 (mkRat 5 100) else c4
  max (mkRat 1 10) (min 1 c5)

/-- The keyword-to-category map of _smart_extract, in dict insertion order. -/
def importantKeywords : List (List Char × CaptureType) :=
  [("重要".data, .fact), ("决定".data, .decision), ("计划".data, .plan),
   ("偏好".data, .preference), ("经验".data, .lesson), ("应该".data, .lesson)]

/-- The sentence delimiters of _smart_extract. -/
def smartDelims (c : Char) : Bool :=
  c == '。' || c == '！' || c == '？' || c == '\n'

/-- _smart_extract: split the text into sentences, and for each nonempty
stripped sentence containing one of the trigger keywords (first keyword in
dict order wins) emit an item with confidence 0.6, plus 0.1 when the sentence
is the first or the last of the split. -/
def smartExtract (cw : List CtxEntry) (text : List Char) : List CapturedItem :=
  let sentences := splitRuns smartDelims text
  let n := sentences.length
  sentences.enum.filterMap fun is =>
    let sentence := pyStrip is.2
    if sentence.isEmpty then none
    else
      match importantKeywords.find? (fun kw => listContains kw.1 sentence) with
      | none => none
      | some kw =>
        let confidence : ℚ :=
          if is.1 = 0 ∨ is.1 = n - 1 then qadd (mkRat 6 10) (mkRat 1 10) else mkRat 6 10
        some { type := kw.2, content := sentence, confidence := confidence,
               context := getCurrentContext cw, method := .smartExtraction is.1 }

/-- _create_content_fingerprint: lowercase and drop non-word characters; the
fingerprint is the first 20 characters of the cleaned string when the cleaned
string has at least 10 characters, else the raw content. -/
def createContentFingerprint (content : List Char) : List Char :=
  let cleanContent := (pyLower content).filter pyIsWordChar
  if cleanContent.length < 10 then content else cleanContent.take 20

/-- The order of items.sort(key=confidence, reverse=True): descending
confidence.  Python list.sort is a stable sort, and the stable sort of a list
with respect to a total preorder is unique, so it is modelled by the stable
`List.insertionSort`. -/
def confDesc (a b : CapturedItem) : Prop :=
  b.confidence ≤ a.confidence

instance : DecidableRel confDesc :=
  fun a b => inferInstanceAs (Decidable (b.confidence ≤ a.confidence))

instance : IsTotal CapturedItem confDesc :=
  ⟨fun a b => le_total b.confidence a.confidence⟩

instance : IsTrans CapturedItem confDesc :=
  ⟨fun _ _ _ h1 h2 => le_trans h2 h1⟩

/-- The seen-set walk of _deduplicate_items: keep the first item of each
fingerprint. -/
def dedupKeep (seen : List (List Char)) : List CapturedItem → List CapturedItem
  | [] => []
  | item :: rest =>
    let fp := createContentFingerprint item.content
    if seen.contains fp then dedupKeep seen rest
    else item :: dedupKeep (fp :: seen) rest

/-- _deduplicate_items: sort by confidence descending (stable), keep the first
item of each content fingerprint. -/
def deduplicateItems (items : List CapturedItem) : List CapturedItem :=
  if items.isEmpty then [] else dedupKeep [] (items.insertionSort confDesc)

/-- The pattern-matching stage of capture_from_text, downstream of the regex
calls: strip each match, discard content shorter than 10 or longer than 500
characters, score it, and keep it when the confidence reaches the configured
minimum. -/
def patternStage (cfg : CaptureConfig) (cw1 : List CtxEntry)
    (rawMatches : List RawMatch) (text : List Char) : List CapturedItem :=
  rawMatches.filterMap fun m =>
    let content := pyStrip m.matched
    if content.length < 10 ∨ 500 < content.length then none
    else
      let confidence := calculateConfidence cw1 content m.type m.baseConfidence text
      if cfg.minConfidence ≤ confidence then
        some { type := m.type, content := content, confidence := confidence,
               context := getCurrentContext cw1, method := .patternMatching m.pattern }
      else none

/-- capture_from_text: return nothing for blank text; otherwise update the
context window, run the pattern stage, fall back to _smart_extract when fewer
than two items were captured, and deduplicate. -/
def captureFromText (cfg : CaptureConfig) (cw : List CtxEntry)
    (rawMatches : List RawMatch) (text : List Char) (ctx : Option (List Char)) :
    List CapturedItem :=
  if (pyStrip text).isEmpty then []
  else
    let cw1 := updateContext cfg cw text ctx
    let patternItems := patternStage cfg cw1 rawMatches text
    let allItems :=
      if patternItems.length < 2 then patternItems ++ smartExtract cw1 text
      else patternItems
    deduplicateItems allItems

/-! ### Tiered memory store (src/core/memory_manager.py) -/

/-- Enum MemoryLayer. -/
inductive MemoryLayer where
  | hot | warm | cold
deriving DecidableEq

/-- Dataclass MemoryItem.  The datetime timestamp is the millisecond clock
value supplied at creation; metadata is a key-value string map. -/
structure MemoryItem where
  id : List Char
  content : List Char
  layer : MemoryLayer
  category : List Char
  importance : ℚ
  timestamp : Nat
  metadata : List (List Char × List Char)
  tags : List (List Char)
deriving DecidableEq

/-- The in-memory state of LiteMemoryManager: the three tier caches.
hot_cache and cold_cache are plain lists; warm_cache is a dict keyed by item
id, modelled as its insertion-ordered entry list. -/
structure ManagerState where
  hotCache : List MemoryItem
  warmCache : List MemoryItem
  coldCache : List MemoryItem
deriving DecidableEq

/-- _validate_content: nonempty, at least 3 characters after stripping, and at
least 3 distinct characters (len(set(content))). -/
def validateContent (content : List Char) : Bool :=
  if content.isEmpty || (pyStrip content).length < 3 then false
  else if content.dedup.length < 3 then false
  else true

/-- The duplicate test of _is_duplicate and _update_existing:
item.content.lower().strip() == content.lower().strip(). -/
def dupMatch (content : List Char) (it : MemoryItem) : Bool :=
  decide (pyStrip (pyLower it.content) = pyStrip (pyLower content))

/-- _is_duplicate: scan the hot cache, then the cold cache. -/
def isDuplicate (st : ManagerState) (content : List Char) : Bool :=
  st.hotCache.any (dupMatch content) || st.coldCache.any (dupMatch content)

/-- The mutation _update_existing applies to the matched item: refresh the
timestamp and raise importance by 0.1 capped at 1.0. -/
def bumpItem (now : Nat) (it : MemoryItem) : MemoryItem :=
  { it with timestamp := now, importance := min 1 (qadd it.importance (mkRat 1 10)) }

/-- Apply `f` to the first element satisfying `p`; the Bool reports whether a
match was found. -/
def updateFirst (p : MemoryItem → Bool) (f : MemoryItem → MemoryItem) :
    List MemoryItem → Bool × List MemoryItem
  | [] => (false, [])
  | x :: xs =>
    if p x then (true, f x :: xs)
    else
      let r := updateFirst p f xs
      (r.1, x :: r.2)

/-- _update_existing: update the first matching item of the hot cache, else of
the cold cache; report whether one was found. -/
def updateExisting (st : ManagerState) (now : Nat) (content : List Char) :
    Bool × ManagerState :=
  match updateFirst (dupMatch content) (bumpItem now) st.hotCache with
  | (true, hot2) => (true, { st with hotCache := hot2 })
  | (false, _) =>
    match updateFirst (dupMatch content) (bumpItem now) st.coldCache with
    | (true, cold2) => (true, { st with coldCache := cold2 })
    | (false, _) => (false, st)

/-- _generate_id: "mem_" followed by the millisecond timestamp. -/
def generateId (now : Nat) : List Char :=
  "mem_".data ++ Nat.toDigits 10 now

/-- The punctuation stripped from candidate tag words. -/
def pyIsTagPunct (c : Char) : Bool :=
  c == '.' || c == ',' || c == '!' || c == '?' || c == ';' || c == ':'

/-- Python str.strip('.,!?;:'). -/
def stripTagPunct (w : List Char) : List Char :=
  ((w.dropWhile pyIsTagPunct).reverse.dropWhile pyIsTagPunct).reverse

/-- _extract_tags: split on whitespace, strip punctuation, keep lowercased
alphanumeric words longer than 2 characters, at most 5 tags. -/
def extractTags (content : List Char) : List (List Char) :=
  ((pySplitWs content).filterMap fun w0 =>
    let w := stripTagPunct w0
    if 2 < w.length ∧ pyIsAlnumStr w = true then some (pyLower w) else none).take 5

/-- Dict assignment warm_cache[id] = item: replace the entry with the same id
in place, else append. -/
def warmInsert : List MemoryItem → MemoryItem → List MemoryItem
  | [], it => [it]
  | x :: xs, it => if x.id = it.id then it :: xs else x :: warmInsert xs it

/-- _store_to_layer: append to the hot or cold cache, or dict-insert into the
warm cache.  The file re-rendering of the hot and cold tiers does not feed
back into the in-memory state and its exceptions are caught, so the operation
always reports success. -/
def storeToLayer (st : ManagerState) (it : MemoryItem) : Bool × ManagerState :=
  match it.layer with
  | .hot => (true, { st with hotCache := st.hotCache ++ [it] })
  | .cold => (true, { st with coldCache := st.coldCache ++ [it] })
  | .warm => (true, { st with warmCache := warmInsert st.warmCache it })

/-- The MemoryItem store_memory builds for fresh content: id from the clock,
metadata defaulting to the empty dict, and tags auto-derived when the argument
is None or the empty list (Python `tags or self._extract_tags(content)`). -/
def storedItem (now : Nat) (content : List Char) (layer : MemoryLayer)
    (category : List Char) (importance : ℚ)
    (metadata : Option (List (List Char × List Char)))
    (tags : Option (List (List Char))) : MemoryItem :=
  { id := generateId now, content := content, layer := layer,
    category := category, importance := importance, timestamp := now,
    metadata := metadata.getD [],
    tags := match tags with
      | some (t :: ts) => t :: ts
      | _ => extractTags content }

/-- store_memory: validate, merge into an existing duplicate, or create a new
item and store it to the requested layer. -/
def storeMemory (st : ManagerState) (now : Nat) (content : List Char)
    (layer : MemoryLayer) (category : List Char) (importance : ℚ)
    (metadata : Option (List (List Char × List Char)))
    (tags : Option (List (List Char))) : Bool × ManagerState :=
  if !validateContent content then (false, st)
  else if isDuplicate st content then updateExisting st now content
  else storeToLayer st (storedItem now content layer category importance metadata tags)

/-- total_memories of get_stats: the sum of the three cache sizes. -/
def totalMemories (st : ManagerState) : Nat :=
  st.hotCache.length + st.warmCache.length + st.coldCache.length

/-- The fixed keyword list of _calculate_similarity. -/
def similarityKeywords : List (List Char) :=
  ["react".data, "前端".data, "框架".data, "组件化".data, "开发".data]

/-- _calculate_similarity: 0.9 on a lowercased substring hit, else a blend of
Jaccard similarity over the word sets (weight 0.6), the fraction of content
tokens occurring in the query word set (weight 0.2), and a keyword bonus of
0.1 per shared domain keyword capped at 0.2, the total capped at 1.0. -/
def calculateSimilarity (query content : List Char) : ℚ :=
  let queryLower := pyLower query
  let contentLower := pyLower content
  if listContains queryLower contentLower then mkRat 9 10
  else
    let queryWords := (pySplitWs queryLower).dedup
    let contentWords := (pySplitWs contentLower).dedup
    if queryWords.isEmpty || contentWords.isEmpty then 0
    else
      let inter := queryWords.filter (fun w => contentWords.contains w)
      let union := (queryWords ++ contentWords).dedup
      let jaccardSim : ℚ := if !union.isEmpty then mkRat inter.length union.length else 0
      let queryFreq := (pySplitWs contentLower).countP (fun w => queryWords.contains w)
      let contentLen := (pySplitWs content).length
      let freqScore : ℚ := if 0 < contentLen then mkRat queryFreq contentLen else 0
      let bonus : ℚ :=
        qmul (mkRat ((similarityKeywords.filter (fun w =>
          listContains w queryLower && listContains w contentLower)).length) 1) (mkRat 1 10)
      let finalScore :=
        qadd (qadd (qmul jaccardSim (mkRat 6 10)) (qmul freqScore (mkRat 2 10)))
          (min bonus (mkRat 2 10))
      min 1 finalScore

/-- One entry of the search_memories result list. -/
structure SearchResult where
  content : List Char
  score : ℚ
  layer : List Char
  category : List Char
  timestamp : Nat
  importance : ℚ
deriving DecidableEq

/-- The order of results.sort(key=score, reverse=True): descending score,
modelled by the stable insertion sort exactly as `confDesc`. -/
def scoreDesc (a b : SearchResult) : Prop :=
  b.score ≤ a.score

instance : DecidableRel scoreDesc :=
  fun a b => inferInstanceAs (Decidable (b.score ≤ a.score))

instance : IsTotal SearchResult scoreDesc :=
  ⟨fun a b => le_total b.score a.score⟩

instance : IsTrans SearchResult scoreDesc :=
  ⟨fun _ _ _ h1 h2 => le_trans h2 h1⟩

/-- The result record built by search_memories for one stored item. -/
def toSearchResult (query : List Char) (layerName : List Char) (it : MemoryItem) :
    SearchResult :=
  { content := it.content, score := calculateSimilarity query it.content,
    layer := layerName, category := it.category, timestamp := it.timestamp,
    importance := it.importance }

/-- search_memories: score the hot, cold and warm caches in that order, keep
results scoring at least min_score, sort by score descending, truncate to
limit.  The Python default of min_score is 0.3 (see
`searchMemoriesDefault`). -/
def searchMemories (st : ManagerState) (query : List Char) (limit : Nat)
    (minScore : ℚ) : List SearchResult :=
  (((st.hotCache.map (toSearchResult query "hot".data)).filter
        (fun r => decide (minScore ≤ r.score))
    ++ (st.coldCache.map (toSearchResult query "cold".data)).filter
        (fun r => decide (minScore ≤ r.score))
    ++ (st.warmCache.map (toSearchResult query "warm".data)).filter
        (fun r => decide (minScore ≤ r.score))).insertionSort scoreDesc).take limit

/-- search_memories with the defaulted arguments of the source signature:
limit = 10 and min_score = 0.3. -/
def searchMemoriesDefault (st : ManagerState) (query : List Char) :
    List SearchResult :=
  searchMemories st query 10 (mkRat 3 10)

/-- One record of the array serialised by export_memories.  json.dumps of the
record list followed by json parsing is the identity on this data, so the
parsed export is modelled by the record list itself. -/
structure ExportRecord where
  id : List Char
  content : List Char
  layer : List Char
  category : List Char
  importance : ℚ
  timestamp : Nat
  tags : List (List Char)
  metadata : List (List Char × List Char)
deriving DecidableEq

/-- The record export_memories emits for one item. -/
def toExportRecord (layerName : List Char) (it : MemoryItem) : ExportRecord :=
  { id := it.id, content := it.content, layer := layerName,
    category := it.category, importance := it.importance,
    timestamp := it.timestamp, tags := it.tags, metadata := it.metadata }

/-- export_memories("json"): the serialised array collects the hot cache, the
cold cache, then the warm cache. -/
def exportRecords (st : ManagerState) : List ExportRecord :=
  st.hotCache.map (toExportRecord "hot".data)
  ++ st.coldCache.map (toExportRecord "cold".data)
  ++ st.warmCache.map (toExportRecord "warm".data)

/-! ### Supporting lemmas -/

/-- The fingerprint of a captured item. -/
def fpOf (it : CapturedItem) : List Char :=
  createContentFingerprint it.content

theorem dedupKeep_sublist (seen : List (List Char)) (l : List CapturedItem) :
    (dedupKeep seen l).Sublist l := by
  induction l generalizing seen with
  | nil => simp [dedupKeep]
  | cons item rest ih =>
    rw [dedupKeep]
    by_cases h : seen.contains (createContentFingerprint item.content) = true
    · simp only [h, if_true]
      exact (ih seen).trans (List.sublist_cons_self item rest)
    · simp only [h, if_false]
      exact (ih _).cons₂ item

theorem mem_of_mem_dedupKeep {seen : List (List Char)} {l : List CapturedItem}
    {x : CapturedItem} (h : x ∈ dedupKeep seen l) : x ∈ l :=
  (dedupKeep_sublist seen l).mem h

theorem mem_of_mem_deduplicateItems {items : List CapturedItem} {x : CapturedItem}
    (h : x ∈ deduplicateItems items) : x ∈ items := by
  rw [deduplicateItems] at h
  by_cases he : items.isEmpty = true
  · simp [he] at h
  · simp only [he, if_false] at h
    exact (List.perm_insertionSort confDesc items).mem_iff.mp (mem_of_mem_dedupKeep h)

theorem fpOf_def (it : CapturedItem) :
    createContentFingerprint it.content = fpOf it := rfl

theorem dedupKeep_countP_of_seen (seen : List (List Char)) (l : List CapturedItem)
    (f : List Char) (hf : f ∈ seen) :
    (dedupKeep seen l).countP (fun z => decide (fpOf z = f)) = 0 := by
  induction l generalizing seen with
  | nil => simp [dedupKeep]
  | cons item rest ih =>
    rw [dedupKeep]
    simp only [fpOf_def]
    by_cases h : seen.contains (fpOf item) = true
    · rw [if_pos h]
      exact ih seen hf
    · rw [if_neg h]
      have hne : ¬ fpOf item = f := by
        intro heq
        exact h (List.elem_eq_true_of_mem (heq ▸ hf))
      rw [List.countP_cons_of_neg _ _ (by simpa using hne)]
      exact ih _ (List.mem_cons_of_mem _ hf)

theorem dedupKeep_countP_of_mem (seen : List (List Char)) (l : List CapturedItem)
    (f : List Char) (hf : f ∉ seen) (hex : ∃ x ∈ l, fpOf x = f) :
    (dedupKeep seen l).countP (fun z => decide (fpOf z = f)) = 1 := by
  induction l generalizing seen with
  | nil => simp at hex
  | cons item rest ih =>
    rw [dedupKeep]
    simp only [fpOf_def]
    by_cases h : seen.contains (fpOf item) = true
    · rw [if_pos h]
      refine ih seen hf ?_
      obtain ⟨x, hx, hfx⟩ := hex
      rcases List.mem_cons.mp hx with rfl | hx'
      · exact absurd (List.mem_of_elem_eq_true h) (hfx ▸ hf)
      · exact ⟨x, hx', hfx⟩
    · rw [if_neg h]
      by_cases hip : fpOf item = f
      · rw [List.countP_cons_of_pos _ _ (by simpa using hip)]
        rw [dedupKeep_countP_of_seen _ _ _ (hip ▸ List.mem_cons_self _ _)]
      · rw [List.countP_cons_of_neg _ _ (by simpa using hip)]
        refine ih _ ?_ ?_
        · intro hmem
          rcases List.mem_cons.mp hmem with heq | hmem'
          · exact hip heq.symm
          · exact hf hmem'
        · obtain ⟨x, hx, hfx⟩ := hex
          rcases List.mem_cons.mp hx with rfl | hx'
          · exact absurd hfx hip
          · exact ⟨x, hx', hfx⟩

theorem dedupKeep_dominant (l : List CapturedItem) (hl : l.Pairwise confDesc)
    (f : List Char) (seen : List (List Char)) (hf : f ∉ seen)
    (hex : ∃ x ∈ l, fpOf x = f) :
    ∃ y ∈ dedupKeep seen l, fpOf y = f ∧
      ∀ z ∈ l, fpOf z = f → z.confidence ≤ y.confidence := by
  induction l generalizing seen with
  | nil => simp at hex
  | cons item rest ih =>
    have hpw := List.pairwise_cons.mp hl
    rw [dedupKeep]
    simp only [fpOf_def]
    by_cases h : seen.contains (fpOf item) = true
    · rw [if_pos h]
      have hif : ¬ fpOf item = f := by
        intro heq
        exact hf (heq ▸ List.mem_of_elem_eq_true h)
      have hex' : ∃ x ∈ rest, fpOf x = f := by
        obtain ⟨x, hx, hfx⟩ := hex
        rcases List.mem_cons.mp hx with rfl | hx'
        · exact absurd hfx hif
        · exact ⟨x, hx', hfx⟩
      obtain ⟨y, hy, hfy, hdom⟩ := ih hpw.2 seen hf hex'
      refine ⟨y, hy, hfy, ?_⟩
      intro z hz hfz
      rcases List.mem_cons.mp hz with rfl | hz'
      · exact absurd hfz hif
      · exact hdom z hz' hfz
    · rw [if_neg h]
      by_cases hip : fpOf item = f
      · refine ⟨item, List.mem_cons_self _ _, hip, ?_⟩
        intro z hz _
        rcases List.mem_cons.mp hz with rfl | hz'
        · exact le_refl _
        · exact hpw.1 z hz'
      · have hex' : ∃ x ∈ rest, fpOf x = f := by
          obtain ⟨x, hx, hfx⟩ := hex
          rcases List.mem_cons.mp hx with rfl | hx'
          · exact absurd hfx hip
          · exact ⟨x, hx', hfx⟩
        have hf' : f ∉ fpOf item :: seen := by
          intro hmem
          rcases List.mem_cons.mp hmem with heq | hmem'
          · exact hip heq.symm
          · exact hf hmem'
        obtain ⟨y, hy, hfy, hdom⟩ := ih hpw.2 _ hf' hex'
        refine ⟨y, List.mem_cons_of_mem _ hy, hfy, ?_⟩
        intro z hz hfz
        rcases List.mem_cons.mp hz with rfl | hz'
        · exact absurd hfz hip
        · exact hdom z hz' hfz

theorem dedupKeep_fp_fresh (seen : List (List Char)) (l : List CapturedItem) :
    (dedupKeep seen l).Pairwise (fun a b => fpOf a ≠ fpOf b) ∧
      ∀ x ∈ dedupKeep seen l, fpOf x ∉ seen := by
  induction l generalizing seen with
  | nil => simp [dedupKeep]
  | cons item rest ih =>
    rw [dedupKeep]
    simp only [fpOf_def]
    by_cases h : seen.contains (fpOf item) = true
    · rw [if_pos h]
      exact ih seen
    · rw [if_neg h]
      obtain ⟨ihpw, ihseen⟩ := ih (fpOf item :: seen)
      constructor
      · refine List.pairwise_cons.mpr ⟨?_, ihpw⟩
        intro y hy heq
        exact ihseen y hy (heq ▸ List.mem_cons_self _ _)
      · intro x hx
        rcases List.mem_cons.mp hx with rfl | hx'
        · intro hmem
          exact h (List.elem_eq_true_of_mem hmem)
        · intro hmem
          exact ihseen x hx' (List.mem_cons_of_mem _ hmem)

theorem dedupKeep_of_fresh (seen : List (List Char)) (l : List CapturedItem)
    (hpw : l.Pairwise (fun a b => fpOf a ≠ fpOf b))
    (hseen : ∀ x ∈ l, fpOf x ∉ seen) :
    dedupKeep seen l = l := by
  induction l generalizing seen with
  | nil => simp [dedupKeep]
  | cons item rest ih =>
    rw [dedupKeep]
    simp only [fpOf_def]
    have h : ¬ seen.contains (fpOf item) = true := by
      intro hc
      exact hseen item (List.mem_cons_self _ _) (List.mem_of_elem_eq_true hc)
    rw [if_neg h]
    have hpw' := List.pairwise_cons.mp hpw
    have harg : ∀ x ∈ rest, fpOf x ∉ fpOf item :: seen := by
      intro x hx hmem
      rcases List.mem_cons.mp hmem with heq | hmem'
      · exact hpw'.1 x hx heq.symm
      · exact hseen x (List.mem_cons_of_mem _ hx) hmem'
    rw [ih _ hpw'.2 harg]

/-! ### Claim C5 -/

/-- Claim C5: deduplication is idempotent, and for each fingerprint present in
the input exactly one item with that fingerprint survives, whose confidence is
at least the confidence of every input item sharing the fingerprint (with
equal confidences the stable sort keeps the earlier item, so the survivor is
the highest-confidence one). -/
theorem deduplicateItems_idempotent_and_dominant (items : List CapturedItem) :
    deduplicateItems (deduplicateItems items) = deduplicateItems items ∧
      ∀ x ∈ items,
        (deduplicateItems items).countP (fun z => decide (fpOf z = fpOf x)) = 1 ∧
        ∃ y ∈ deduplicateItems items, fpOf y = fpOf x ∧
          ∀ z ∈ items, fpOf z = fpOf x → z.confidence ≤ y.confidence := by
  constructor
  · by_cases he : items.isEmpty = true
    · simp [deduplicateItems, he]
    · have hd : deduplicateItems items =
          dedupKeep [] (items.insertionSort confDesc) := by
        rw [deduplicateItems, if_neg he]
      by_cases hde : (deduplicateItems items).isEmpty = true
      · rw [List.isEmpty_iff.mp hde]
        simp [deduplicateItems]
      · rw [deduplicateItems, if_neg hde]
        have hsorted : (deduplicateItems items).Pairwise confDesc := by
          rw [hd]
          exact List.Pairwise.sublist (dedupKeep_sublist _ _)
            (List.sorted_insertionSort confDesc items)
        rw [List.Sorted.insertionSort_eq hsorted]
        refine dedupKeep_of_fresh _ _ ?_ ?_
        · rw [hd]
          exact (dedupKeep_fp_fresh [] _).1
        · intro x _ hmem
          exact absurd hmem (List.not_mem_nil _)
  · intro x hx
    have he : items.isEmpty ≠ true := by
      intro h
      rw [List.isEmpty_iff.mp h] at hx
      exact absurd hx (List.not_mem_nil _)
    have hd : deduplicateItems items =
        dedupKeep [] (items.insertionSort confDesc) := by
      rw [deduplicateItems, if_neg he]
    have hxs : x ∈ items.insertionSort confDesc :=
      (List.perm_insertionSort confDesc items).mem_iff.mpr hx
    constructor
    · rw [hd]
      exact dedupKeep_countP_of_mem [] _ _ (List.not_mem_nil _)
        ⟨x, hxs, rfl⟩
    · obtain ⟨y, hy, hfy, hdom⟩ := dedupKeep_dominant _
        (List.sorted_insertionSort confDesc items) (fpOf x) []
        (List.not_mem_nil _) ⟨x, hxs, rfl⟩
      refine ⟨y, hd ▸ hy, hfy, ?_⟩
      intro z hz hfz
      exact hdom z ((List.perm_insertionSort confDesc items).mem_iff.mpr hz) hfz

/-- Witness for C5 at a concrete two-item list sharing one fingerprint. -/
theorem deduplicateItems_idempotent_and_dominant_witness :
    deduplicateItems (deduplicateItems
        [{ type := CaptureType.decision, content := "abcdefghij".data,
           confidence := mkRat 6 10, context := [],
           method := CaptureMethod.smartExtraction 0 },
         { type := CaptureType.fact, content := "abcdefghij".data,
           confidence := mkRat 9 10, context := [],
           method := CaptureMethod.smartExtraction 1 }]) =
      deduplicateItems
        [{ type := CaptureType.decision, content := "abcdefghij".data,
           confidence := mkRat 6 10, context := [],
           method := CaptureMethod.smartExtraction 0 },
         { type := CaptureType.fact, content := "abcdefghij".data,
           confidence := mkRat 9 10, context := [],
           method := CaptureMethod.smartExtraction 1 }] ∧
    (deduplicateItems
        [{ type := CaptureType.decision, content := "abcdefghij".data,
           confidence := mkRat 6 10, context := [],
           method := CaptureMethod.smartExtraction 0 },
         { type := CaptureType.fact, content := "abcdefghij".data,
           confidence := mkRat 9 10, context := [],
           method := CaptureMethod.smartExtraction 1 }]).countP
      (fun z => decide (fpOf z = fpOf
        { type := CaptureType.decision, content := "abcdefghij".data,
          confidence := mkRat 6 10, context := [],
          method := CaptureMethod.smartExtraction 0 })) = 1 ∧
    ∃ y ∈ deduplicateItems
        [{ type := CaptureType.decision, content := "abcdefghij".data,
           confidence := mkRat 6 10, context := [],
           method := CaptureMethod.smartExtraction 0 },
         { type := CaptureType.fact, content := "abcdefghij".data,
           confidence := mkRat 9 10, context := [],
           method := CaptureMethod.smartExtraction 1 }],
      fpOf y = fpOf
        { type := CaptureType.decision, content := "abcdefghij".data,
          confidence := mkRat 6 10, context := [],
          method := CaptureMethod.smartExtraction 0 } ∧
      ∀ z ∈ [{ type := CaptureType.decision, content := "abcdefghij".data,
               confidence := mkRat 6 10, context := [],
               method := CaptureMethod.smartExtraction 0 },
             { type := CaptureType.fact, content := "abcdefghij".data,
               confidence := mkRat 9 10, context := [],
               method := CaptureMethod.smartExtraction 1 }],
        fpOf z = fpOf
          { type := CaptureType.decision, content := "abcdefghij".data,
            confidence := mkRat 6 10, context := [],
            method := CaptureMethod.smartExtraction 0 } →
          z.confidence ≤ y.confidence :=
  ⟨(deduplicateItems_idempotent_and_dominant _).1,
   (deduplicateItems_idempotent_and_dominant _).2 _ (by decide)⟩

/-! ### Shape lemmas for the capture pipeline -/

theorem calculateConfidence_bounds (cw : List CtxEntry) (content : List Char)
    (ctype : CaptureType) (baseConfidence : ℚ) (fullText : List Char) :
    (1 : ℚ)/10 ≤ calculateConfidence cw content ctype baseConfidence fullText ∧
      calculateConfidence cw content ctype baseConfidence fullText ≤ 1 := by
  have h110 : mkRat 1 10 = (1 : ℚ)/10 := by
    rw [mkRat_div]
    norm_num
  rw [calculateConfidence]
  constructor
  · rw [← h110]
    exact le_max_left _ _
  · refine max_le ?_ (min_le_left _ _)
    rw [h110]
    norm_num

theorem mem_patternStage {cfg : CaptureConfig} {cw1 : List CtxEntry}
    {raw : List RawMatch} {text : List Char} {it : CapturedItem}
    (h : it ∈ patternStage cfg cw1 raw text) :
    (∃ p, it.method = CaptureMethod.patternMatching p) ∧
      10 ≤ it.content.length ∧ it.content.length ≤ 500 ∧
      (1 : ℚ)/10 ≤ it.confidence ∧ it.confidence ≤ 1 := by
  rw [patternStage, List.mem_filterMap] at h
  obtain ⟨m, _, hm⟩ := h
  by_cases hlen : (pyStrip m.matched).length < 10 ∨ 500 < (pyStrip m.matched).length
  · rw [if_pos hlen] at hm
    exact absurd hm (by simp)
  · rw [if_neg hlen] at hm
    push_neg at hlen
    by_cases hconf : cfg.minConfidence ≤
        calculateConfidence cw1 (pyStrip m.matched) m.type m.baseConfidence text
    · rw [if_pos hconf] at hm
      injection hm with hm
      subst hm
      refine ⟨⟨m.pattern, rfl⟩, hlen.1, hlen.2, ?_⟩
      exact calculateConfidence_bounds cw1 (pyStrip m.matched) m.type m.baseConfidence text
    · rw [if_neg hconf] at hm
      exact absurd hm (by simp)

theorem mem_smartExtract {cw : List CtxEntry} {text : List Char}
    {it : CapturedItem} (h : it ∈ smartExtract cw text) :
    (∃ i, it.method = CaptureMethod.smartExtraction i) ∧
      (it.confidence = qadd (mkRat 6 10) (mkRat 1 10) ∨ it.confidence = mkRat 6 10) := by
  rw [smartExtract, List.mem_filterMap] at h
  obtain ⟨is, _, hm⟩ := h
  by_cases hemp : (pyStrip is.2).isEmpty = true
  · rw [if_pos hemp] at hm
    exact absurd hm (by simp)
  · rw [if_neg hemp] at hm
    rcases hfind : importantKeywords.find?
        (fun kw => listContains kw.1 (pyStrip is.2)) with _ | kw
    · rw [hfind] at hm
      exact absurd hm (by simp)
    · rw [hfind] at hm
      injection hm with hm
      subst hm
      refine ⟨⟨is.1, rfl⟩, ?_⟩
      by_cases hpos : is.1 = 0 ∨ is.1 = (splitRuns smartDelims text).length - 1
      · left
        simp [if_pos hpos]
      · right
        simp [if_neg hpos]

theorem mem_captureFromText {cfg : CaptureConfig} {cw : List CtxEntry}
    {raw : List RawMatch} {text : List Char} {ctx : Option (List Char)}
    {it : CapturedItem} (h : it ∈ captureFromText cfg cw raw text ctx) :
    it ∈ patternStage cfg (updateContext cfg cw text ctx) raw text ∨
      it ∈ smartExtract (updateContext cfg cw text ctx) text := by
  rw [captureFromText] at h
  by_cases hb : (pyStrip text).isEmpty = true
  · rw [if_pos hb] at h
    exact absurd h (List.not_mem_nil _)
  · rw [if_neg hb] at h
    have h' := mem_of_mem_deduplicateItems h
    by_cases hfew : (patternStage cfg (updateContext cfg cw text ctx) raw text).length < 2
    · rw [if_pos hfew] at h'
      exact List.mem_append.mp h'
    · rw [if_neg hfew] at h'
      exact Or.inl h'

/-! ### Claim C1 -/

/-- Counterexample to claim C1 as stated: on the input text 决定好 the
returned capture list contains an item of content length 3 < 10, produced by
the keyword fallback, which applies no length filter.  The empty raw-match
list is forced: every regex match is a substring of the 3-character text, so
after trimming its length is at most 3 and the pattern stage discards it (see
`patternStage_of_short_matches`). -/
theorem captureFromText_length_counterexample :
    ¬ (∀ it ∈ captureFromText ⟨10, mkRat 6 10⟩ [] [] "决定好".data none,
        10 ≤ it.content.length ∧ it.content.length ≤ 500) := by
  decide

/-- Every raw-match list whose trimmed contents are shorter than 10 characters
(in particular any faithful match list for a text of fewer than 10 characters)
makes the pattern stage empty, so the counterexample above does not depend on
the choice of the empty raw-match list. -/
theorem patternStage_of_short_matches (cfg : CaptureConfig) (cw1 : List CtxEntry)
    (raw : List RawMatch) (text : List Char)
    (h : ∀ m ∈ raw, (pyStrip m.matched).length < 10) :
    patternStage cfg cw1 raw text = [] := by
  rw [patternStage, List.filterMap_eq_nil_iff]
  intro m hm
  rw [if_pos (Or.inl (h m hm))]

/-- Claim C1, amended: every capture produced by the pattern-matching path has
content length between 10 and 500; the keyword fallback path applies no length
filter (its items carry the trimmed sentence whatever its length). -/
theorem captureFromText_pattern_length_bounds (cfg : CaptureConfig)
    (cw : List CtxEntry) (raw : List RawMatch) (text : List Char)
    (ctx : Option (List Char)) :
    ∀ it ∈ captureFromText cfg cw raw text ctx,
      (∃ p, it.method = CaptureMethod.patternMatching p) →
        10 ≤ it.content.length ∧ it.content.length ≤ 500 := by
  intro it hit hp
  rcases mem_captureFromText hit with hpat | hsm
  · have := mem_patternStage hpat
    exact ⟨this.2.1, this.2.2.1⟩
  · obtain ⟨i, hi⟩ := (mem_smartExtract hsm).1
    obtain ⟨p, hp'⟩ := hp
    rw [hp'] at hi
    exact absurd hi (by simp)

/-- Witness for the amended C1: a pattern-path capture at a concrete run
satisfies the length bounds. -/
theorem captureFromText_pattern_length_bounds_witness :
    10 ≤ (({ type := CaptureType.decision, content := "使用React作为前端框架".data,
             confidence := calculateConfidence
               (updateContext ⟨10, mkRat 6 10⟩ [] "决定：使用React作为前端框架".data none)
               "使用React作为前端框架".data CaptureType.decision (mkRat 9 10)
               "决定：使用React作为前端框架".data,
             context := getCurrentContext
               (updateContext ⟨10, mkRat 6 10⟩ [] "决定：使用React作为前端框架".data none),
             method := CaptureMethod.patternMatching "pat1".data } : CapturedItem)).content.length ∧
      (({ type := CaptureType.decision, content := "使用React作为前端框架".data,
          confidence := calculateConfidence
            (updateContext ⟨10, mkRat 6 10⟩ [] "决定：使用React作为前端框架".data none)
            "使用React作为前端框架".data CaptureType.decision (mkRat 9 10)
            "决定：使用React作为前端框架".data,
          context := getCurrentContext
            (updateContext ⟨10, mkRat 6 10⟩ [] "决定：使用React作为前端框架".data none),
          method := CaptureMethod.patternMatching "pat1".data } : CapturedItem)).content.length ≤ 500 :=
  captureFromText_pattern_length_bounds ⟨10, mkRat 6 10⟩ []
    [{ type := CaptureType.decision, pattern := "pat1".data, baseConfidence := mkRat 9 10,
       matched := "使用React作为前端框架".data }]
    "决定：使用React作为前端框架".data none _ (by decide) ⟨"pat1".data, rfl⟩

/-! ### Claim C7 -/

/-- Claim C7: every item returned by capture_from_text, from the clamped
pattern path or the fixed-confidence fallback path, has confidence between
0.1 and 1.0. -/
theorem captureFromText_confidence_bounds (cfg : CaptureConfig)
    (cw : List CtxEntry) (raw : List RawMatch) (text : List Char)
    (ctx : Option (List Char)) :
    ∀ it ∈ captureFromText cfg cw raw text ctx,
      (1 : ℚ)/10 ≤ it.confidence ∧ it.confidence ≤ 1 := by
  intro it hit
  rcases mem_captureFromText hit with hpat | hsm
  · have := mem_patternStage hpat
    exact ⟨this.2.2.2.1, this.2.2.2.2⟩
  · rcases (mem_smartExtract hsm).2 with hc | hc <;> rw [hc]
    · rw [qadd_eq, mkRat_div, mkRat_div]
      norm_num
    · rw [mkRat_div]
      norm_num

/-- Witness for C7: the bounds at a concrete fallback capture. -/
theorem captureFromText_confidence_bounds_witness :
    (1 : ℚ)/10 ≤
        (({ type := CaptureType.decision, content := "决定好".data,
            confidence := qadd (mkRat 6 10) (mkRat 1 10),
            context := "1. 决定好".data,
            method := CaptureMethod.smartExtraction 0 } : CapturedItem)).confidence ∧
      (({ type := CaptureType.decision, content := "决定好".data,
          confidence := qadd (mkRat 6 10) (mkRat 1 10),
          context := "1. 决定好".data,
          method := CaptureMethod.smartExtraction 0 } : CapturedItem)).confidence ≤ 1 :=
  captureFromText_confidence_bounds ⟨10, mkRat 6 10⟩ [] [] "决定好".data none _ (by decide)

/-! ### Claim C10 -/

/-- Counterexample to claim C10 as stated: with min_confidence 0.8 > 0.7 and
the input 决定好。决定好 (two identical sentences), the fallback extracts two
items of confidence 0.7 sharing one fingerprint; deduplication keeps only the
first, so the second fallback item (sentence index 1) is not in the returned
list.  The empty raw-match list is forced because the text has 7 < 10
characters (see `patternStage_of_short_matches`). -/
theorem captureFromText_fallback_counterexample :
    mkRat 7 10 < (⟨10, mkRat 8 10⟩ : CaptureConfig).minConfidence ∧
    ({ type := CaptureType.decision, content := "决定好".data,
       confidence := qadd (mkRat 6 10) (mkRat 1 10),
       context := "1. 决定好。决定好".data,
       method := CaptureMethod.smartExtraction 1 } : CapturedItem) ∈
      smartExtract (updateContext ⟨10, mkRat 8 10⟩ [] "决定好。决定好".data none)
        "决定好。决定好".data ∧
    ({ type := CaptureType.decision, content := "决定好".data,
       confidence := qadd (mkRat 6 10) (mkRat 1 10),
       context := "1. 决定好。决定好".data,
       method := CaptureMethod.smartExtraction 1 } : CapturedItem) ∉
      captureFromText ⟨10, mkRat 8 10⟩ [] [] "决定好。决定好".data none := by
  decide

/-- Claim C10, amended: fallback items are never compared against the
configured minimum confidence — whenever the fallback stage runs, every item
it produces reaches the returned list up to deduplication: the returned list
contains an item with the same fingerprint and at least its confidence (the
item itself unless a same-fingerprint item of higher or equal confidence
preceded it). -/
theorem smartExtract_skips_min_confidence (cfg : CaptureConfig)
    (cw : List CtxEntry) (raw : List RawMatch) (text : List Char)
    (ctx : Option (List Char))
    (_hmin : (7 : ℚ)/10 < cfg.minConfidence)
    (hblank : (pyStrip text).isEmpty = false)
    (hfew : (patternStage cfg (updateContext cfg cw text ctx) raw text).length < 2) :
    ∀ it ∈ smartExtract (updateContext cfg cw text ctx) text,
      ∃ y ∈ captureFromText cfg cw raw text ctx,
        fpOf y = fpOf it ∧ it.confidence ≤ y.confidence := by
  intro it hit
  have hcap : captureFromText cfg cw raw text ctx =
      deduplicateItems (patternStage cfg (updateContext cfg cw text ctx) raw text
        ++ smartExtract (updateContext cfg cw text ctx) text) := by
    rw [captureFromText, if_neg (by simp [hblank])]
    show deduplicateItems
        (if (patternStage cfg (updateContext cfg cw text ctx) raw text).length < 2 then
          patternStage cfg (updateContext cfg cw text ctx) raw text
            ++ smartExtract (updateContext cfg cw text ctx) text
        else patternStage cfg (updateContext cfg cw text ctx) raw text) = _
    rw [if_pos hfew]
  have hmem : it ∈ patternStage cfg (updateContext cfg cw text ctx) raw text
      ++ smartExtract (updateContext cfg cw text ctx) text :=
    List.mem_append.mpr (Or.inr hit)
  have hne : (patternStage cfg (updateContext cfg cw text ctx) raw text
      ++ smartExtract (updateContext cfg cw text ctx) text).isEmpty ≠ true := by
    intro h
    rw [List.isEmpty_iff.mp h] at hmem
    exact absurd hmem (List.not_mem_nil _)
  have hd : deduplicateItems (patternStage cfg (updateContext cfg cw text ctx) raw text
      ++ smartExtract (updateContext cfg cw text ctx) text) =
      dedupKeep [] ((patternStage cfg (updateContext cfg cw text ctx) raw text
        ++ smartExtract (updateContext cfg cw text ctx) text).insertionSort confDesc) := by
    rw [deduplicateItems, if_neg hne]
  have hxs : it ∈ (patternStage cfg (updateContext cfg cw text ctx) raw text
      ++ smartExtract (updateContext cfg cw text ctx) text).insertionSort confDesc :=
    (List.perm_insertionSort confDesc _).mem_iff.mpr hmem
  obtain ⟨y, hy, hfy, hdom⟩ := dedupKeep_dominant _
    (List.sorted_insertionSort confDesc _) (fpOf it) []
    (List.not_mem_nil _) ⟨it, hxs, rfl⟩
  refine ⟨y, ?_, hfy, hdom it hxs rfl⟩
  rw [hcap, hd]
  exact hy

/-- Witness for the amended C10 at a concrete run with min_confidence 0.8. -/
theorem smartExtract_skips_min_confidence_witness :
    ∃ y ∈ captureFromText ⟨10, mkRat 8 10⟩ [] [] "决定好".data none,
      fpOf y = fpOf
        ({ type := CaptureType.decision, content := "决定好".data,
           confidence := qadd (mkRat 6 10) (mkRat 1 10),
           context := "1. 决定好".data,
           method := CaptureMethod.smartExtraction 0 } : CapturedItem) ∧
      ({ type := CaptureType.decision, content := "决定好".data,
         confidence := qadd (mkRat 6 10) (mkRat 1 10),
         context := "1. 决定好".data,
         method := CaptureMethod.smartExtraction 0 } : CapturedItem).confidence ≤
        y.confidence :=
  smartExtract_skips_min_confidence ⟨10, mkRat 8 10⟩ [] [] "决定好".data none
    (by rw [show mkRat 8 10 = (8:ℚ)/10 from by rw [mkRat_div]; norm_num]; norm_num)
    (by decide) (by decide) _ (by decide)

/-! ### Supporting lemmas for the store -/

theorem updateFirst_not_found (p : MemoryItem → Bool) (f : MemoryItem → MemoryItem)
    (l : List MemoryItem) (h : ∀ x ∈ l, p x = false) :
    updateFirst p f l = (false, l) := by
  induction l with
  | nil => rfl
  | cons a xs ih =>
    rw [updateFirst]
    rw [if_neg (by simp [h a (List.mem_cons_self _ _)])]
    rw [ih (fun x hx => h x (List.mem_cons_of_mem _ hx))]

theorem updateFirst_found (p : MemoryItem → Bool) (f : MemoryItem → MemoryItem)
    (l : List MemoryItem) (h : l.any p = true) :
    ∃ pre x post, l = pre ++ x :: post ∧ (∀ y ∈ pre, p y = false) ∧ p x = true ∧
      updateFirst p f l = (true, pre ++ f x :: post) := by
  induction l with
  | nil => simp at h
  | cons a xs ih =>
    by_cases hp : p a = true
    · refine ⟨[], a, xs, rfl, by simp, hp, ?_⟩
      rw [updateFirst, if_pos hp]
      rfl
    · have hxs : xs.any p = true := by
        rcases List.any_eq_true.mp h with ⟨x, hx, hpx⟩
        rcases List.mem_cons.mp hx with rfl | hx'
        · exact absurd hpx hp
        · exact List.any_eq_true.mpr ⟨x, hx', hpx⟩
      obtain ⟨pre, x, post, hdec, hpre, hpx, hupd⟩ := ih hxs
      refine ⟨a :: pre, x, post, by rw [hdec]; rfl, ?_, hpx, ?_⟩
      · intro y hy
        rcases List.mem_cons.mp hy with rfl | hy'
        · exact Bool.not_eq_true _ ▸ hp
        · exact hpre y hy'
      · rw [updateFirst, if_neg hp, hupd]
        rfl

theorem warmInsert_fresh (l : List MemoryItem) (it : MemoryItem)
    (h : ∀ x ∈ l, x.id ≠ it.id) : warmInsert l it = l ++ [it] := by
  induction l with
  | nil => rfl
  | cons a xs ih =>
    rw [warmInsert, if_neg (h a (List.mem_cons_self _ _))]
    rw [ih (fun x hx => h x (List.mem_cons_of_mem _ hx))]
    rfl

theorem pyStrip_of_all_space (l : List Char) (h : ∀ c ∈ l, pyIsSpace c = true) :
    pyStrip l = [] := by
  rw [pyStrip, List.dropWhile_eq_nil_iff.mpr h]
  rfl

/-! ### Claim C4 -/

/-- Claim C4: storing empty, whitespace-only or low-diversity content (fewer
than 3 distinct characters) returns false and leaves the state unchanged;
the embedding is total, so no exception escapes. -/
theorem storeMemory_rejects_invalid (st : ManagerState) (now : Nat)
    (content : List Char) (layer : MemoryLayer) (category : List Char)
    (importance : ℚ) (metadata : Option (List (List Char × List Char)))
    (tags : Option (List (List Char)))
    (h : content = [] ∨ (∀ c ∈ content, pyIsSpace c = true) ∨
      content.dedup.length < 3) :
    storeMemory st now content layer category importance metadata tags =
      (false, st) := by
  have hv : validateContent content = false := by
    rw [validateContent]
    rcases h with rfl | hsp | hdist
    · rfl
    · rw [if_pos]
      simp [pyStrip_of_all_space content hsp]
    · by_cases h1 : (content.isEmpty || decide ((pyStrip content).length < 3)) = true
      · rw [if_pos h1]
      · rw [if_neg h1, if_pos hdist]
  rw [storeMemory.eq_def, if_pos (by simp [hv])]

/-- Witness for C4: storing a whitespace-only string into the empty store. -/
theorem storeMemory_rejects_invalid_witness :
    storeMemory ⟨[], [], []⟩ 0 "  ".data MemoryLayer.hot "general".data
      (mkRat 1 2) none none = (false, ⟨[], [], []⟩) :=
  storeMemory_rejects_invalid ⟨[], [], []⟩ 0 "  ".data MemoryLayer.hot
    "general".data (mkRat 1 2) none none (Or.inr (Or.inl (by decide)))

/-! ### Claim C6 -/

/-- Claim C6: when the lowercased query is a substring of the lowercased
content, the overlap similarity is exactly 0.9, with no blending of the
Jaccard, frequency or keyword-bonus terms. -/
theorem calculateSimilarity_substring (query content : List Char)
    (h : listContains (pyLower query) (pyLower content) = true) :
    calculateSimilarity query content = (9 : ℚ)/10 := by
  rw [calculateSimilarity]
  rw [if_pos h, mkRat_div]
  norm_num

/-- Witness for C6 at a concrete query and content. -/
theorem calculateSimilarity_substring_witness :
    calculateSimilarity "React".data "We use React for the frontend".data =
      (9 : ℚ)/10 :=
  calculateSimilarity_substring "React".data "We use React for the frontend".data
    (by decide)

/-! ### Claim C8 -/

/-- Claim C8: the parsed JSON export has exactly stats().total_memories
records, and its ids and contents are exactly those of the stored items of the
three tiers (hot, then cold, then warm, the order the export emits). -/
theorem exportRecords_roundtrip (st : ManagerState) :
    (exportRecords st).length = totalMemories st ∧
      (exportRecords st).map (fun r => (r.id, r.content)) =
        (st.hotCache ++ st.coldCache ++ st.warmCache).map
          (fun it => (it.id, it.content)) := by
  constructor
  · simp [exportRecords, totalMemories]
    omega
  · simp only [exportRecords, List.map_append, List.map_map]
    rfl

/-! ### Claim C2 -/

/-- Counterexample to claim C2 as stated: validation runs before the
duplicate-merge.  After storing "Aba" (valid: 3 distinct characters), the
content "aba" matches the stored item case-insensitively, yet store returns
false and changes nothing, because "aba" itself has only 2 distinct characters
and fails validation; no importance is raised. -/
theorem storeMemory_duplicate_counterexample :
    isDuplicate
        (storeMemory ⟨[], [], []⟩ 1 "Aba".data MemoryLayer.hot "general".data
          (mkRat 1 2) none none).2 "aba".data = true ∧
      storeMemory
          (storeMemory ⟨[], [], []⟩ 1 "Aba".data MemoryLayer.hot "general".data
            (mkRat 1 2) none none).2 2 "aba".data MemoryLayer.hot "general".data
          (mkRat 1 2) none none =
        (false,
          (storeMemory ⟨[], [], []⟩ 1 "Aba".data MemoryLayer.hot "general".data
            (mkRat 1 2) none none).2) := by
  decide

/-- Claim C2, amended: when the stored content itself passes validation and
matches (case-insensitive, after trimming) an existing hot or cold item, store
returns true, refreshes the first matching item's timestamp, raises its
importance by 0.1 capped at 1.0, adds no item to any tier, and leaves
stats().total_memories unchanged. -/
theorem storeMemory_duplicate_merge (st : ManagerState) (now : Nat)
    (content : List Char) (layer : MemoryLayer) (category : List Char)
    (importance : ℚ) (metadata : Option (List (List Char × List Char)))
    (tags : Option (List (List Char)))
    (hv : validateContent content = true)
    (hd : isDuplicate st content = true) :
    (storeMemory st now content layer category importance metadata tags).1 = true ∧
    (storeMemory st now content layer category importance metadata tags).2.warmCache =
      st.warmCache ∧
    (storeMemory st now content layer category importance metadata tags).2.hotCache.length =
      st.hotCache.length ∧
    (storeMemory st now content layer category importance metadata tags).2.coldCache.length =
      st.coldCache.length ∧
    totalMemories (storeMemory st now content layer category importance metadata tags).2 =
      totalMemories st ∧
    ∃ pre x post,
      st.hotCache ++ st.coldCache = pre ++ x :: post ∧
      (∀ y ∈ pre, dupMatch content y = false) ∧
      dupMatch content x = true ∧
      (storeMemory st now content layer category importance metadata tags).2.hotCache ++
          (storeMemory st now content layer category importance metadata tags).2.coldCache =
        pre ++ bumpItem now x :: post ∧
      (bumpItem now x).importance = min 1 (x.importance + 1/10) ∧
      (bumpItem now x).timestamp = now := by
  have hbump : ∀ x : MemoryItem,
      (bumpItem now x).importance = min 1 (x.importance + 1/10) ∧
        (bumpItem now x).timestamp = now := by
    intro x
    refine ⟨?_, rfl⟩
    show min 1 (qadd x.importance (mkRat 1 10)) = _
    rw [qadd_eq, mkRat_div]
    norm_num
  have hsm : storeMemory st now content layer category importance metadata tags =
      updateExisting st now content := by
    rw [storeMemory.eq_def, if_neg (by simp [hv]), if_pos hd]
  rw [hsm]
  by_cases hhot : st.hotCache.any (dupMatch content) = true
  · obtain ⟨pre, x, post, hdec, hpre, hpx, hupd⟩ :=
      updateFirst_found (dupMatch content) (bumpItem now) st.hotCache hhot
    have hue : updateExisting st now content =
        (true, { st with hotCache := pre ++ bumpItem now x :: post }) := by
      rw [updateExisting, hupd]
    rw [hue]
    refine ⟨rfl, rfl, ?_, rfl, ?_, pre, x, post ++ st.coldCache, ?_, hpre, hpx, ?_,
      (hbump x).1, (hbump x).2⟩
    · simp [hdec]
    · simp [totalMemories, hdec]
    · rw [hdec, List.append_assoc]
      rfl
    · show pre ++ bumpItem now x :: post ++ st.coldCache = _
      rw [List.append_assoc]
      rfl
  · have hcold : st.coldCache.any (dupMatch content) = true := by
      have hhotf : st.hotCache.any (dupMatch content) = false := by
        revert hhot
        cases st.hotCache.any (dupMatch content) <;> simp
      have := hd
      rw [isDuplicate, hhotf] at this
      simpa using this
    have hhot' : ∀ y ∈ st.hotCache, dupMatch content y = false := by
      intro y hy
      have := List.any_eq_false.mp (by simpa using hhot) y hy
      simpa using this
    have hupd0 : updateFirst (dupMatch content) (bumpItem now) st.hotCache =
        (false, st.hotCache) :=
      updateFirst_not_found _ _ _ hhot'
    obtain ⟨pre, x, post, hdec, hpre, hpx, hupd⟩ :=
      updateFirst_found (dupMatch content) (bumpItem now) st.coldCache hcold
    have hue : updateExisting st now content =
        (true, { st with coldCache := pre ++ bumpItem now x :: post }) := by
      rw [updateExisting, hupd0, hupd]
    rw [hue]
    refine ⟨rfl, rfl, rfl, ?_, ?_, st.hotCache ++ pre, x, post, ?_, ?_, hpx, ?_,
      (hbump x).1, (hbump x).2⟩
    · simp [hdec]
    · simp [totalMemories, hdec]
    · rw [hdec, List.append_assoc]
    · intro y hy
      rcases List.mem_append.mp hy with hy' | hy'
      · exact hhot' y hy'
      · exact hpre y hy'
    · show st.hotCache ++ (pre ++ bumpItem now x :: post) = _
      rw [List.append_assoc]

/-- Witness for the amended C2: merging "abA" into a store holding "Aba". -/
theorem storeMemory_duplicate_merge_witness :
    (storeMemory
        (storeMemory ⟨[], [], []⟩ 1 "Aba".data MemoryLayer.hot "general".data
          (mkRat 1 2) none none).2 5 "abA".data MemoryLayer.hot "general".data
        (mkRat 1 2) none none).1 = true ∧
    (storeMemory
        (storeMemory ⟨[], [], []⟩ 1 "Aba".data MemoryLayer.hot "general".data
          (mkRat 1 2) none none).2 5 "abA".data MemoryLayer.hot "general".data
        (mkRat 1 2) none none).2.warmCache =
      (storeMemory ⟨[], [], []⟩ 1 "Aba".data MemoryLayer.hot "general".data
        (mkRat 1 2) none none).2.warmCache ∧
    (storeMemory
        (storeMemory ⟨[], [], []⟩ 1 "Aba".data MemoryLayer.hot "general".data
          (mkRat 1 2) none none).2 5 "abA".data MemoryLayer.hot "general".data
        (mkRat 1 2) none none).2.hotCache.length =
      (storeMemory ⟨[], [], []⟩ 1 "Aba".data MemoryLayer.hot "general".data
        (mkRat 1 2) none none).2.hotCache.length ∧
    (storeMemory
        (storeMemory ⟨[], [], []⟩ 1 "Aba".data MemoryLayer.hot "general".data
          (mkRat 1 2) none none).2 5 "abA".data MemoryLayer.hot "general".data
        (mkRat 1 2) none none).2.coldCache.length =
      (storeMemory ⟨[], [], []⟩ 1 "Aba".data MemoryLayer.hot "general".data
        (mkRat 1 2) none none).2.coldCache.length ∧
    totalMemories (storeMemory
        (storeMemory ⟨[], [], []⟩ 1 "Aba".data MemoryLayer.hot "general".data
          (mkRat 1 2) none none).2 5 "abA".data MemoryLayer.hot "general".data
        (mkRat 1 2) none none).2 =
      totalMemories (storeMemory ⟨[], [], []⟩ 1 "Aba".data MemoryLayer.hot
        "general".data (mkRat 1 2) none none).2 ∧
    ∃ pre x post,
      (storeMemory ⟨[], [], []⟩ 1 "Aba".data MemoryLayer.hot "general".data
          (mkRat 1 2) none none).2.hotCache ++
        (storeMemory ⟨[], [], []⟩ 1 "Aba".data MemoryLayer.hot "general".data
          (mkRat 1 2) none none).2.coldCache = pre ++ x :: post ∧
      (∀ y ∈ pre, dupMatch "abA".data y = false) ∧
      dupMatch "abA".data x = true ∧
      (storeMemory
          (storeMemory ⟨[], [], []⟩ 1 "Aba".data MemoryLayer.hot "general".data
            (mkRat 1 2) none none).2 5 "abA".data MemoryLayer.hot "general".data
          (mkRat 1 2) none none).2.hotCache ++
        (storeMemory
          (storeMemory ⟨[], [], []⟩ 1 "Aba".data MemoryLayer.hot "general".data
            (mkRat 1 2) none none).2 5 "abA".data MemoryLayer.hot "general".data
          (mkRat 1 2) none none).2.coldCache = pre ++ bumpItem 5 x :: post ∧
      (bumpItem 5 x).importance = min 1 (x.importance + 1/10) ∧
      (bumpItem 5 x).timestamp = 5 :=
  storeMemory_duplicate_merge
    (storeMemory ⟨[], [], []⟩ 1 "Aba".data MemoryLayer.hot "general".data
      (mkRat 1 2) none none).2 5 "abA".data MemoryLayer.hot "general".data
    (mkRat 1 2) none none (by decide) (by decide)

/-! ### Claim C9 -/

/-- Claim C9: the duplicate check inspects only the hot and cold caches, so
storing the same valid fresh content twice with tier WARM succeeds twice and
creates two distinct warm items under the two distinct generated ids, raising
stats().total_memories by 2 instead of merging. -/
theorem storeMemory_warm_skips_duplicates (st : ManagerState) (t1 t2 : Nat)
    (content : List Char) (category : List Char) (importance : ℚ)
    (metadata : Option (List (List Char × List Char)))
    (tags : Option (List (List Char)))
    (hv : validateContent content = true)
    (hnd : isDuplicate st content = false)
    (hid : generateId t1 ≠ generateId t2)
    (hf1 : ∀ it ∈ st.warmCache, it.id ≠ generateId t1)
    (hf2 : ∀ it ∈ st.warmCache, it.id ≠ generateId t2) :
    (storeMemory st t1 content MemoryLayer.warm category importance metadata tags).1 =
      true ∧
    (storeMemory
        (storeMemory st t1 content MemoryLayer.warm category importance metadata tags).2
        t2 content MemoryLayer.warm category importance metadata tags).1 = true ∧
    ∃ i1 i2,
      (storeMemory
          (storeMemory st t1 content MemoryLayer.warm category importance metadata tags).2
          t2 content MemoryLayer.warm category importance metadata tags).2.warmCache =
        st.warmCache ++ [i1, i2] ∧
      i1.id = generateId t1 ∧ i2.id = generateId t2 ∧ i1.id ≠ i2.id ∧
      i1.content = content ∧ i2.content = content ∧
      (storeMemory
          (storeMemory st t1 content MemoryLayer.warm category importance metadata tags).2
          t2 content MemoryLayer.warm category importance metadata tags).2.hotCache =
        st.hotCache ∧
      (storeMemory
          (storeMemory st t1 content MemoryLayer.warm category importance metadata tags).2
          t2 content MemoryLayer.warm category importance metadata tags).2.coldCache =
        st.coldCache ∧
      totalMemories (storeMemory
          (storeMemory st t1 content MemoryLayer.warm category importance metadata tags).2
          t2 content MemoryLayer.warm category importance metadata tags).2 =
        totalMemories st + 2 := by
  have h1 : storeMemory st t1 content MemoryLayer.warm category importance metadata tags =
      (true, { st with warmCache := st.warmCache ++
        [storedItem t1 content MemoryLayer.warm category importance metadata tags] }) := by
    rw [storeMemory, if_neg (by simp [hv]), if_neg (by simp [hnd])]
    show (true, { st with warmCache := warmInsert st.warmCache _ }) = _
    rw [warmInsert_fresh _ _ (fun x hx => hf1 x hx)]
  have hst1 : (storeMemory st t1 content MemoryLayer.warm category importance
      metadata tags).2 = { st with warmCache := st.warmCache ++
        [storedItem t1 content MemoryLayer.warm category importance metadata tags] } := by
    rw [h1]
  have hnd1 : isDuplicate { st with warmCache := st.warmCache ++
      [storedItem t1 content MemoryLayer.warm category importance metadata tags] }
      content = false := hnd
  have h2 : storeMemory { st with warmCache := st.warmCache ++
      [storedItem t1 content MemoryLayer.warm category importance metadata tags] }
      t2 content MemoryLayer.warm category importance metadata tags =
      (true, { st with warmCache := (st.warmCache ++
        [storedItem t1 content MemoryLayer.warm category importance metadata tags]) ++
        [storedItem t2 content MemoryLayer.warm category importance metadata tags] }) := by
    rw [storeMemory, if_neg (by simp [hv]), if_neg (by simp [hnd1])]
    show (true, { st with warmCache := warmInsert (st.warmCache ++
      [storedItem t1 content MemoryLayer.warm category importance metadata tags]) _ }) = _
    rw [warmInsert_fresh]
    intro x hx
    rcases List.mem_append.mp hx with hx' | hx'
    · exact hf2 x hx'
    · rcases List.mem_cons.mp hx' with rfl | hx''
      · exact hid
      · exact absurd hx'' (List.not_mem_nil _)
  refine ⟨by rw [h1], by rw [hst1, h2], storedItem t1 content MemoryLayer.warm
    category importance metadata tags, storedItem t2 content MemoryLayer.warm
    category importance metadata tags, ?_, rfl, rfl, hid, rfl, rfl, ?_, ?_, ?_⟩
  · rw [hst1, h2, List.append_assoc]
    rfl
  · rw [hst1, h2]
  · rw [hst1, h2]
  · rw [hst1, h2]
    simp [totalMemories]
    omega

/-- Witness for C9: two warm stores of "hello world" into the empty store at
clock values 0 and 1. -/
theorem storeMemory_warm_skips_duplicates_witness :
    (storeMemory ⟨[], [], []⟩ 0 "hello world".data MemoryLayer.warm "general".data
      (mkRat 1 2) none none).1 = true ∧
    (storeMemory
        (storeMemory ⟨[], [], []⟩ 0 "hello world".data MemoryLayer.warm "general".data
          (mkRat 1 2) none none).2
        1 "hello world".data MemoryLayer.warm "general".data (mkRat 1 2) none none).1 =
      true ∧
    ∃ i1 i2,
      (storeMemory
          (storeMemory ⟨[], [], []⟩ 0 "hello world".data MemoryLayer.warm "general".data
            (mkRat 1 2) none none).2
          1 "hello world".data MemoryLayer.warm "general".data (mkRat 1 2) none
          none).2.warmCache =
        (⟨[], [], []⟩ : ManagerState).warmCache ++ [i1, i2] ∧
      i1.id = generateId 0 ∧ i2.id = generateId 1 ∧ i1.id ≠ i2.id ∧
      i1.content = "hello world".data ∧ i2.content = "hello world".data ∧
      (storeMemory
          (storeMemory ⟨[], [], []⟩ 0 "hello world".data MemoryLayer.warm "general".data
            (mkRat 1 2) none none).2
          1 "hello world".data MemoryLayer.warm "general".data (mkRat 1 2) none
          none).2.hotCache = (⟨[], [], []⟩ : ManagerState).hotCache ∧
      (storeMemory
          (storeMemory ⟨[], [], []⟩ 0 "hello world".data MemoryLayer.warm "general".data
            (mkRat 1 2) none none).2
          1 "hello world".data MemoryLayer.warm "general".data (mkRat 1 2) none
          none).2.coldCache = (⟨[], [], []⟩ : ManagerState).coldCache ∧
      totalMemories (storeMemory
          (storeMemory ⟨[], [], []⟩ 0 "hello world".data MemoryLayer.warm "general".data
            (mkRat 1 2) none none).2
          1 "hello world".data MemoryLayer.warm "general".data (mkRat 1 2) none
          none).2 =
        totalMemories (⟨[], [], []⟩ : ManagerState) + 2 :=
  storeMemory_warm_skips_duplicates ⟨[], [], []⟩ 0 1 "hello world".data
    "general".data (mkRat 1 2) none none (by decide) (by decide) (by decide)
    (by decide) (by decide)

/-! ### Claim C3 -/

/-- Claim C3, amended: search returns at most limit results, every result
scores at least minScore, the list is sorted by score descending — and the
defaulted call uses min_score = 0.3 (not 0.0 as claimed). -/
theorem searchMemories_spec (st : ManagerState) (query : List Char)
    (limit : Nat) (minScore : ℚ) :
    (searchMemories st query limit minScore).length ≤ limit ∧
    (∀ r ∈ searchMemories st query limit minScore, minScore ≤ r.score) ∧
    (searchMemories st query limit minScore).Pairwise scoreDesc ∧
    searchMemoriesDefault st query = searchMemories st query 10 ((3 : ℚ)/10) := by
  refine ⟨List.length_take_le _ _, ?_, ?_, ?_⟩
  · intro r hr
    rw [searchMemories] at hr
    have hsort := List.Sublist.mem hr (List.take_sublist _ _)
    have hres := (List.perm_insertionSort scoreDesc _).mem_iff.mp hsort
    rcases List.mem_append.mp hres with hres' | hres'
    · rcases List.mem_append.mp hres' with hres'' | hres''
      · exact of_decide_eq_true (List.mem_filter.mp hres'').2
      · exact of_decide_eq_true (List.mem_filter.mp hres'').2
    · exact of_decide_eq_true (List.mem_filter.mp hres').2
  · rw [searchMemories]
    exact List.Pairwise.sublist (List.take_sublist _ _)
      (List.sorted_insertionSort scoreDesc _)
  · rw [searchMemoriesDefault,
      show mkRat 3 10 = (3 : ℚ)/10 from by rw [mkRat_div]; norm_num]

/-- Counterexample to the default minScore of claim C3: after storing
"alpha beta gamma delta", the query "alpha zzz" scores 0.17 against it, which
the omitted-argument call filters out (the code default is min_score = 0.3),
while the same call with minScore = 0.0 returns it — so the default is not
0.0. -/
theorem searchMemoriesDefault_counterexample :
    searchMemoriesDefault
        (storeMemory ⟨[], [], []⟩ 1 "alpha beta gamma delta".data MemoryLayer.hot
          "general".data (mkRat 1 2) none none).2 "alpha zzz".data = [] ∧
      searchMemories
          (storeMemory ⟨[], [], []⟩ 1 "alpha beta gamma delta".data MemoryLayer.hot
            "general".data (mkRat 1 2) none none).2 "alpha zzz".data 10 0 ≠ [] := by
  decide

/-- Witness for the amended C3 at a concrete store and query. -/
theorem searchMemories_spec_witness :
    (searchMemories
        (storeMemory ⟨[], [], []⟩ 1 "alpha beta gamma delta".data MemoryLayer.hot
          "general".data (mkRat 1 2) none none).2 "alpha zzz".data 10 0).length ≤ 10 ∧
    (∀ r ∈ searchMemories
        (storeMemory ⟨[], [], []⟩ 1 "alpha beta gamma delta".data MemoryLayer.hot
          "general".data (mkRat 1 2) none none).2 "alpha zzz".data 10 0,
      (0 : ℚ) ≤ r.score) ∧
    (searchMemories
        (storeMemory ⟨[], [], []⟩ 1 "alpha beta gamma delta".data MemoryLayer.hot
          "general".data (mkRat 1 2) none none).2 "alpha zzz".data 10 0).Pairwise
      scoreDesc ∧
    searchMemoriesDefault
        (storeMemory ⟨[], [], []⟩ 1 "alpha beta gamma delta".data MemoryLayer.hot
          "general".data (mkRat 1 2) none none).2 "alpha zzz".data =
      searchMemories
        (storeMemory ⟨[], [], []⟩ 1 "alpha beta gamma delta".data MemoryLayer.hot
          "general".data (mkRat 1 2) none none).2 "alpha zzz".data 10 ((3 : ℚ)/10) :=
  searchMemories_spec
    (storeMemory ⟨[], [], []⟩ 1 "alpha beta gamma delta".data MemoryLayer.hot
      "general".data (mkRat 1 2) none none).2 "alpha zzz".data 10 0
